import Mathlib

/-!
Verification of the rule-evaluation engine of the repository
(`analyze_architecture.py` and `validate_code.py`) against its
natural-language specification.

The Python source is shallowly embedded: strings are Lean `String`s
(lists of characters), Python `dict`s become association lists,
Python sets become lists considered up to membership, fallible code
returns `Except`, and the regexes obtained by the source's glob-to-regex
string replacements are embedded as lists of the three regex atoms those
replacements can produce (a literal character, the any-character atom
produced by an unescaped dot, and a starred character class).
-/

/-! ## String primitives (models of Python `in`, `endswith`, `<`) -/

/-- Boolean test that the first character list is a prefix of the second
(model of matching at the start of a Python string). -/
def listPrefixB : List Char → List Char → Bool
  | [], _ => true
  | _ :: _, [] => false
  | a :: p, b :: s => a == b && listPrefixB p s

/-- Boolean test that the first character list occurs contiguously inside
the second: model of Python's substring operator `in`. -/
def listSubB : List Char → List Char → Bool
  | p, [] => listPrefixB p []
  | p, b :: s => listPrefixB p (b :: s) || listSubB p s

/-- Python `needle in haystack` on strings. -/
def substrS (needle haystack : String) : Bool :=
  listSubB needle.toList haystack.toList

/-- Python `haystack.endswith(needle)`. -/
def endsWithS (haystack needle : String) : Bool :=
  listPrefixB needle.toList.reverse haystack.toList.reverse

/-- Lexicographic comparison of character lists by code point,
the order Python uses to compare strings. -/
def charListLt : List Char → List Char → Bool
  | [], [] => false
  | [], _ :: _ => true
  | _ :: _, [] => false
  | a :: as, b :: bs => a < b || (a == b && charListLt as bs)

/-- Python `a < b` on strings. -/
def strLtB (a b : String) : Bool := charListLt a.toList b.toList

/-- Python `s.strip()`: remove leading and trailing whitespace. -/
def stripS (s : String) : String :=
  ⟨((s.toList.dropWhile Char.isWhitespace).reverse.dropWhile
      Char.isWhitespace).reverse⟩

/-! ## The regex fragment produced by the source's glob translations

Both Python files build regexes exclusively by the string rewrites
`pattern.replace('**', '.*').replace('*', '[^<sep>]*')` and match them
with `re.match` (anchored at the start only).  Because the second
`replace` also rewrites the `*` introduced by the first, `**` in a glob
becomes the regex `.[^<sep>]*`.  A `.` in the glob is passed through
unescaped and therefore behaves as the regex any-character atom.  The
resulting regexes are concatenations of the following atoms.  (Glob
patterns containing further regex metacharacters such as `+` or `(`
are outside the embedded pattern class; none appear in the claims.) -/

inductive RElem : Type
  /-- a literal character -/
  | rlit (c : Char)
  /-- `.` : any single character -/
  | rdot
  /-- `[^c]*` for `some c`; `.*` (any character, starred) for `none` -/
  | rstar (excl : Option Char)
deriving DecidableEq, Repr

/-- Does the character class of a starred atom exclude character `d`? -/
def excludes : Option Char → Char → Bool
  | some c, d => d == c
  | none, _ => false

/-- One step-bounded unfolding of the backtracking matcher; every
recursive call decreases `pattern length + string length`, so any fuel
exceeding that sum computes the match (kept structural in the fuel so
that concrete matches evaluate inside the kernel). -/
def rmatchAux : Nat → List RElem → List Char → Bool
  | 0, _, _ => false
  | _ + 1, [], _ => true
  | _ + 1, .rlit _ :: _, [] => false
  | f + 1, .rlit c :: p, d :: s => c == d && rmatchAux f p s
  | _ + 1, .rdot :: _, [] => false
  | f + 1, .rdot :: p, _ :: s => rmatchAux f p s
  | f + 1, .rstar _ :: p, [] => rmatchAux f p []
  | f + 1, .rstar ex :: p, d :: s =>
      rmatchAux f p (d :: s) || (!(excludes ex d) && rmatchAux f (.rstar ex :: p) s)

/-- Backtracking matcher for a concatenation of atoms, anchored at the
start of the string only (model of a truthy Python `re.match`): the
whole pattern must consume a prefix of the string. -/
def rmatch (p : List RElem) (s : List Char) : Bool :=
  rmatchAux (p.length + s.length + 1) p s

/-- Fuel-bounded matcher anchored at both ends (a full match). -/
def rmatchFullAux : Nat → List RElem → List Char → Bool
  | 0, _, _ => false
  | _ + 1, [], s => s.isEmpty
  | _ + 1, .rlit _ :: _, [] => false
  | f + 1, .rlit c :: p, d :: s => c == d && rmatchFullAux f p s
  | _ + 1, .rdot :: _, [] => false
  | f + 1, .rdot :: p, _ :: s => rmatchFullAux f p s
  | f + 1, .rstar _ :: p, [] => rmatchFullAux f p []
  | f + 1, .rstar ex :: p, d :: s =>
      rmatchFullAux f p (d :: s) || (!(excludes ex d) && rmatchFullAux f (.rstar ex :: p) s)

/-- The matcher anchored at both ends: used only to state the
specification's claimed semantics for comparison. -/
def rmatchFull (p : List RElem) (s : List Char) : Bool :=
  rmatchFullAux (p.length + s.length + 1) p s

/-- Declarative prefix-match semantics for the atom concatenations:
`RMatch p s` holds when the pattern `p` can consume some prefix of `s`. -/
inductive RMatch : List RElem → List Char → Prop
  | nil (s : List Char) : RMatch [] s
  | lit {c : Char} {p : List RElem} {s : List Char} :
      RMatch p s → RMatch (.rlit c :: p) (c :: s)
  | dot {p : List RElem} {s : List Char} (d : Char) :
      RMatch p s → RMatch (.rdot :: p) (d :: s)
  | starSkip {ex : Option Char} {p : List RElem} {s : List Char} :
      RMatch p s → RMatch (.rstar ex :: p) s
  | starCons {ex : Option Char} {p : List RElem} {s : List Char} {d : Char} :
      excludes ex d = false → RMatch (.rstar ex :: p) s →
      RMatch (.rstar ex :: p) (d :: s)

/-! ## Glob tokenization and the source's translations -/

/-- Tokenize a glob pattern the way the leftmost-first string rewrite
`replace('**', ...)` does: a `**` is consumed as one token, a remaining
`*` as another, every other character as a literal. -/
def tokenizeGlob : List Char → List RElem
  | [] => []
  | '*' :: '*' :: rest => .rdot :: .rstar none :: tokenizeGlob rest
  | '*' :: rest => .rstar none :: tokenizeGlob rest
  | c :: rest => .rlit c :: tokenizeGlob rest

/-- Fix up a token stream for a given separator: in the source the second
`replace('*', '[^sep]*')` rewrites every remaining `*` — including the one
inside the `.*` produced for `**` — into `[^sep]*`.  `tokenizeGlob`
emits `rstar none` for each such `*`; this pass installs the separator
class, and turns an unescaped `.` literal into the any-character atom. -/
def sepTranslate (sep : Char) : List RElem → List RElem
  | [] => []
  | .rstar _ :: rest => .rstar (some sep) :: sepTranslate sep rest
  | .rlit '.' :: rest => .rdot :: sepTranslate sep rest
  | e :: rest => e :: sepTranslate sep rest

/-- The regex the source actually produces for a glob pattern:
`pattern.replace('**', '.*').replace('*', '[^sep]*')`. -/
def globToRegex (sep : Char) (pat : String) : List RElem :=
  sepTranslate sep (tokenizeGlob pat.toList)

/-- Truthiness of `re.match(translated_pattern, s)` in the source. -/
def globMatchCode (sep : Char) (pat s : String) : Bool :=
  rmatch (globToRegex sep pat) s.toList

/-! ## Embedding of `analyze_architecture.py` -/

namespace Arch

/-- `Module` dataclass of the analyzer (`path` keeps the file path handed
to `parse_module`; `name` is the path relative to the scanned root, the
module's key in `self.modules`). -/
structure Module where
  path : String
  name : String
  imports : List String
  classes : List String
  functions : List String
  line_count : Nat
  layer : Option String
deriving DecidableEq, Repr

/-- `ArchitectureViolation` dataclass (severity is the raw string the
source stores: "ERROR", "WARNING" or "INFO"). -/
structure ArchitectureViolation where
  severity : String
  rule : String
  file_path : String
  message : String
  suggestion : String
deriving DecidableEq, Repr

/-- Per-layer configuration from the rules document. -/
structure LayerCfg where
  directories : List String
  forbidden_imports : List String
deriving DecidableEq, Repr

/-- `determine_layer`: first layer (in declaration order) one of whose
directory patterns `re.match`es the relative path, after the source's
translation `replace('**', '.*').replace('*', '[^/]*')`. -/
def determine_layer (layersCfg : List (String × LayerCfg)) (relPath : String) :
    Option String :=
  match layersCfg with
  | [] => none
  | (layerName, info) :: rest =>
      if info.directories.any (fun pat => globMatchCode '/' pat relPath) then
        some layerName
      else
        determine_layer rest relPath

/-- Modelled from the spec (section 4.2): layer classification as the
specification words it — glob semantics where a double star matches any
path-segment sequence, a single star matches within one segment, a dot is
a literal dot, and the match is anchored against the full relative path. -/
def globToRegexSpec : List RElem → List RElem
  | [] => []
  | .rstar _ :: rest => .rstar (some '/') :: globToRegexSpec rest
  | .rdot :: .rstar _ :: rest => .rstar none :: globToRegexSpec rest
  | e :: rest => e :: globToRegexSpec rest

/-- Modelled from the spec (section 4.2): the comparison definition for
`determine_layer` under the specification's claimed match semantics
(full anchoring, `**` spanning segments, literal dots). -/
def determine_layer_spec (layersCfg : List (String × LayerCfg)) (relPath : String) :
    Option String :=
  match layersCfg with
  | [] => none
  | (layerName, info) :: rest =>
      if info.directories.any
          (fun pat => rmatchFull (globToRegexSpec (tokenizeGlob pat.toList)) relPath.toList) then
        some layerName
      else
        determine_layer_spec rest relPath

/-! ### Dotted module paths (`str(path.with_suffix('')).replace('/', '.')`) -/

/-- Final path component (everything after the last slash). -/
def pathName (p : List Char) : List Char :=
  (p.reverse.takeWhile (fun c => !(c == '/'))).reverse

/-- Index of the last dot of a component, if any. -/
def rdotIdx (name : List Char) : Option Nat :=
  ((List.range name.length).filter (fun i => name.getD i ' ' == '.')).getLast?

/-- `pathlib` suffix stripping on the final component: the part from the
last dot is removed when that dot is neither the first nor the last
character of the component. -/
def stripExtName (name : List Char) : List Char :=
  match rdotIdx name with
  | some i => if 0 < i ∧ i < name.length - 1 then name.take i else name
  | none => name

/-- `path.with_suffix('')` on the textual path. -/
def withSuffixEmpty (p : List Char) : List Char :=
  p.take (p.length - (pathName p).length) ++ stripExtName (pathName p)

/-- The candidate module's dotted name used by `build_dependency_graph`:
`str(other_module.path.with_suffix('')).replace('/', '.')`. -/
def dottedPath (p : String) : String :=
  ⟨(withSuffixEmpty p.toList).map (fun c => if c == '/' then '.' else c)⟩

/-- One import-to-candidate test of `build_dependency_graph`:
`import_name in other_module_path or other_module_path.endswith(import_name)`. -/
def importMatches (importName otherModulePath : String) : Bool :=
  substrS importName otherModulePath || endsWithS otherModulePath importName

/-- The dependency set recorded for one module: every module of the corpus
(the source iterates over all of `self.modules`, including the module
itself) whose dotted path matches one of the module's raw imports.  The
Python `set` of keys is represented as the sub-list of corpus keys, which
lists each matching key exactly once. -/
def moduleDeps (modules : List (String × Module)) (m : Module) : List String :=
  (modules.filter (fun other =>
      m.imports.any (fun imp => importMatches imp (dottedPath other.2.path)))).map
    Prod.fst

/-- `build_dependency_graph` (a `defaultdict` in the source only creates
entries on first insertion; here every module gets an entry, possibly
empty — the two are edge-for-edge identical). -/
def build_dependency_graph (modules : List (String × Module)) :
    List (String × List String) :=
  modules.map (fun nm => (nm.1, moduleDeps modules nm.2))

/-! ### `check_layer_violations` -/

/-- The ERROR violation emitted for one forbidden import. -/
def mkLayerViolation (moduleName layer importName : String) : ArchitectureViolation :=
  { severity := "ERROR"
    rule := "no_layer_skipping"
    file_path := moduleName
    message := "Layer '" ++ layer ++ "' should not import '" ++ importName ++ "'"
    suggestion := "Access through allowed layers instead" }

/-- `check_layer_violations`: for each classified module, each raw import
is tested against each forbidden pattern of its layer, translated with
`replace('**', '.*').replace('*', '[^.]*')` and matched by `re.match`. -/
def check_layer_violations (layersCfg : List (String × LayerCfg))
    (modules : List (String × Module)) : List ArchitectureViolation :=
  modules.foldl (fun acc nm =>
    match nm.2.layer with
    | none => acc
    | some ly =>
        let forbidden :=
          (((layersCfg.find? (fun e => e.1 == ly)).map (fun e => e.2.forbidden_imports)).getD [])
        acc ++ nm.2.imports.flatMap (fun imp =>
          forbidden.filterMap (fun fp =>
            if globMatchCode '.' fp imp then some (mkLayerViolation nm.1 ly imp)
            else none))) []

/-! ### `check_circular_dependencies` -/

/-- The dependency graph as consumed by the cycle check. -/
abbrev Graph : Type := List (String × List String)

/-- `self.dependency_graph.get(start, [])`. -/
def neighborsOf (g : Graph) (a : String) : List String :=
  ((List.find? (fun e => e.1 == a) g).map Prod.snd).getD []

/-- The inner recursive `has_path` of the source, made total with a fuel
argument; the Python recursion terminates because `visited` grows at each
level, so any fuel exceeding the number of node occurrences in the graph
computes the same value. -/
def hasPathAux (g : Graph) : Nat → String → String → List String → Bool
  | 0, _, _, _ => false
  | fuel + 1, start, stop, visited =>
      if start = stop then true
      else if start ∈ visited then false
      else (neighborsOf g start).any (fun nb => hasPathAux g fuel nb stop (start :: visited))

/-- Fuel that strictly exceeds the number of distinct nodes mentioned in
the graph, hence suffices for the search. -/
def graphFuel (g : Graph) : Nat :=
  (List.map Prod.fst g).length + (List.map Prod.snd g).flatten.length + 2

/-- `has_path(start, end, set())` of `check_circular_dependencies`. -/
def has_path (g : Graph) (start stop : String) : Bool :=
  hasPathAux g (graphFuel g) start stop []

/-- `tuple(sorted([module_a, module_b]))`. -/
def sortPair (a b : String) : String × String :=
  if strLtB a b then (a, b) else (b, a)

/-- The ERROR violation emitted for one unordered pair found circular. -/
def mkCycleViolation (a b : String) : ArchitectureViolation :=
  { severity := "ERROR"
    rule := "no_circular_dependencies"
    file_path := a
    message := "Circular dependency: " ++ a ++ " ↔ " ++ b
    suggestion := "Refactor to remove circular dependency" }

/-- Body of the double loop of `check_circular_dependencies`: skip pairs
already checked, otherwise record the pair and report if a path leads
back. -/
def cycleStep (g : Graph) (acc : List (String × String) × List ArchitectureViolation)
    (a b : String) : List (String × String) × List ArchitectureViolation :=
  if sortPair a b ∈ acc.1 then acc
  else
    (sortPair a b :: acc.1,
     if has_path g b a then acc.2 ++ [mkCycleViolation a b] else acc.2)

/-- `check_circular_dependencies`: iterate every directed edge, dedupe by
unordered pair, and emit one ERROR per pair whose reverse reachability
test succeeds. -/
def check_circular_dependencies (g : Graph) : List ArchitectureViolation :=
  (g.foldl (fun acc e => e.2.foldl (fun acc2 b => cycleStep g acc2 e.1 b) acc)
    (([] : List (String × String)), ([] : List ArchitectureViolation))).2

/-- The directed-edge relation of a graph value. -/
def edgeP (g : Graph) (a b : String) : Prop :=
  ∃ e ∈ g, e.1 = a ∧ b ∈ e.2

/-- Reachability along directed edges. -/
inductive Reaches (g : Graph) : String → String → Prop
  | refl (a : String) : Reaches g a a
  | step {a b c : String} : edgeP g a b → Reaches g b c → Reaches g a c

/-- A graph is acyclic when no edge can be closed back into a loop. -/
def Acyclic (g : Graph) : Prop :=
  ∀ a b : String, edgeP g a b → ¬ Reaches g b a

end Arch

/-- A rule's regular expression as configured: the raw pattern text and,
when the pattern compiles, the line predicate it denotes.  `compiled =
none` models a pattern `re` rejects, so that applying it raises. -/
structure Regex where
  src : String
  compiled : Option (String → Bool)

/-- `re.search(pattern, s)` truthiness; raises (models `re.error`) when
the pattern does not compile. -/
def reSearch (r : Regex) (s : String) : Except Unit Bool :=
  match r.compiled with
  | some f => Except.ok (f s)
  | none => Except.error ()

namespace Arch

/-- The `complexity_thresholds` section, flattened: each numeric threshold
is optional and `check_complexity` reads it with the documented default
(`lines.warning` 500, `lines.error` 1000, `methods.error` 30). -/
structure ComplexityThresholds where
  linesWarning : Option Nat
  linesError : Option Nat
  methodsError : Option Nat
deriving DecidableEq, Repr

/-- The body of `check_complexity` for one module: strict comparisons,
ERROR before WARNING for the line count (an `elif` in the source), plus
the independent method-count ERROR. -/
def check_complexity_module (th : ComplexityThresholds) (moduleName : String)
    (m : Module) : List ArchitectureViolation :=
  (if m.line_count > th.linesError.getD 1000 then
    [{ severity := "ERROR", rule := "single_responsibility", file_path := moduleName,
       message := "File too large: " ++ toString m.line_count ++ " lines",
       suggestion := "Consider splitting into smaller modules" }]
   else if m.line_count > th.linesWarning.getD 500 then
    [{ severity := "WARNING", rule := "single_responsibility", file_path := moduleName,
       message := "File is large: " ++ toString m.line_count ++ " lines",
       suggestion := "Consider refactoring" }]
   else [])
  ++
  (if m.functions.length > th.methodsError.getD 30 then
    [{ severity := "ERROR", rule := "single_responsibility", file_path := moduleName,
       message := "Too many methods: " ++ toString m.functions.length,
       suggestion := "Split into multiple classes" }]
   else [])

/-- `check_complexity` over the module map. -/
def check_complexity (th : ComplexityThresholds)
    (modules : List (String × Module)) : List ArchitectureViolation :=
  modules.foldl (fun acc nm => acc ++ check_complexity_module th nm.1 nm.2) []

/-- One `duplicate_logic` pattern from the rules document. -/
structure DupPattern where
  name : String
  regex : Regex
  suggestion : String

/-- The `abstraction_indicators.duplicate_logic` section. -/
structure DupConfig where
  patterns : List DupPattern
  threshold : Option Nat

/-- The modules whose raw file content matches the pattern.  The corpus is
given as `(module key, raw file content)` pairs because the source
re-reads each file here.  The per-module `try/except: pass` swallows any
`re` failure, so a non-compiling regex collects no matches. -/
def dupMatches (corpus : List (String × String)) (r : Regex) : List String :=
  corpus.filterMap (fun nc =>
    match r.compiled with
    | some f => if f nc.2 then some nc.1 else none
    | none => none)

/-- `check_duplicate_logic`: one INFO finding per matching module once the
match count reaches the threshold (default 3). -/
def check_duplicate_logic (cfg : DupConfig) (corpus : List (String × String)) :
    List ArchitectureViolation :=
  cfg.patterns.foldl (fun acc p =>
    let ms := dupMatches corpus p.regex
    if ms.length ≥ cfg.threshold.getD 3 then
      acc ++ ms.map (fun mn =>
        { severity := "INFO", rule := "duplicate_logic", file_path := mn,
          message := "Duplicate pattern '" ++ p.name ++ "' found in " ++
            toString ms.length ++ " files",
          suggestion := p.suggestion })
    else acc) []

/-- Return value of `print_violations`: `0` when the violation list is
empty, otherwise `1` exactly when an ERROR-severity violation exists
(this integer is the analyzer's process exit status). -/
def print_violations_ret (vs : List ArchitectureViolation) : Nat :=
  if vs.isEmpty then 0
  else if (vs.filter (fun v => v.severity == "ERROR")).isEmpty then 0 else 1

end Arch

/-! ## Embedding of `validate_code.py` -/

namespace Val

/-- The `Severity` enumeration of the validator. -/
inductive Severity : Type
  | ERROR
  | WARNING
  | INFO
  | OK
deriving DecidableEq, Repr

/-- `Finding` dataclass. -/
structure Finding where
  severity : Severity
  file_path : String
  line_number : Nat
  rule_name : String
  message : String
  code_snippet : String
  suggestion : String
deriving DecidableEq, Repr

/-- One pattern entry of a validation check: either a bare regex string or
a rich record with optional message, suggestion and severity override. -/
inductive PatternCfg : Type
  | bare (r : Regex)
  | rich (r : Regex) (message : Option String) (suggestion : Option String)
      (sev : Option Severity)

/-- One validation check from the rules document (dictionary fields that
the source reads with `.get` and a default are `Option`s). -/
structure CheckConfig where
  name : String
  severity : Option Severity
  patterns : List PatternCfg
  files : Option (List String)
  allowed_contexts : List String
  context_lines : Option Nat

/-- `max(0, line_num - context_lines - 1)` of `is_allowed_context`
(truncated natural subtraction is exactly the `max` clamp). -/
def ctxStart (lineNum contextLines : Nat) : Nat :=
  lineNum - contextLines - 1

/-- `min(len(all_lines), line_num + context_lines)`. -/
def ctxEnd (numLines lineNum contextLines : Nat) : Nat :=
  min numLines (lineNum + contextLines)

/-- `all_lines[start:end]`, the context window actually sliced. -/
def windowCode (allLines : List String) (lineNum contextLines : Nat) : List String :=
  (allLines.drop (ctxStart lineNum contextLines)).take
    (ctxEnd allLines.length lineNum contextLines - ctxStart lineNum contextLines)

/-- `is_allowed_context`: a finding at 1-based `lineNum` is suppressed
when some allowed-context pattern (a) is the `tests/` sentinel and the
file path contains `tests/`, (b) occurs in the matching line, or (c)
occurs in the joined context window (`context_lines` defaults to 2). -/
def is_allowed_context (filePath line : String) (allLines : List String)
    (lineNum : Nat) (allowedContexts : List String)
    (contextLinesOpt : Option Nat) : Bool :=
  allowedContexts.any (fun cp =>
    (cp == "tests/" && substrS "tests/" filePath) ||
    substrS cp line ||
    (let cl := contextLinesOpt.getD 2
     substrS cp (String.join (windowCode allLines lineNum cl))))

/-- The per-line scan of `run_check` for one compiled-or-not pattern:
search each line, raise on a non-compiling regex, suppress allowed
contexts, and record a `Finding` per remaining match. -/
def scanLines (filePath : String) (allLines : List String) (acs : List String)
    (clo : Option Nat) (ruleName : String) (r : Regex) (msg sugg : String)
    (psev : Severity) : List (Nat × String) → Except Unit (List Finding)
  | [] => Except.ok []
  | (n, line) :: rest =>
      match reSearch r line with
      | Except.error e => Except.error e
      | Except.ok b =>
        match scanLines filePath allLines acs clo ruleName r msg sugg psev rest with
        | Except.error e => Except.error e
        | Except.ok fs =>
          if b && !(is_allowed_context filePath line allLines n acs clo) then
            Except.ok ({ severity := psev, file_path := filePath, line_number := n,
                         rule_name := ruleName, message := msg,
                         code_snippet := stripS line, suggestion := sugg } :: fs)
          else Except.ok fs

/-- The pattern loop of `run_check`: bare patterns take the check-level
severity and a `Matched pattern:` message; rich patterns may override. -/
def runPatterns (filePath : String) (lines : List String) (cfg : CheckConfig)
    (sev : Severity) : List PatternCfg → Except Unit (List Finding)
  | [] => Except.ok []
  | pc :: rest =>
      let rms : Regex × String × String × Severity :=
        match pc with
        | .bare r => (r, "Matched pattern: " ++ r.src, "", sev)
        | .rich r m sg pv => (r, m.getD "Pattern match", sg.getD "", pv.getD sev)
      match scanLines filePath lines cfg.allowed_contexts cfg.context_lines
          cfg.name rms.1 rms.2.1 rms.2.2.1 rms.2.2.2 (List.enumFrom 1 lines) with
      | Except.error e => Except.error e
      | Except.ok fs =>
        match runPatterns filePath lines cfg sev rest with
        | Except.error e => Except.error e
        | Except.ok fs2 => Except.ok (fs ++ fs2)

/-- `run_check`: skip the check when a `files` path filter is present and
no entry is a substring of the path; otherwise scan every pattern.  The
check-level severity defaults to WARNING.  Raised regex errors
propagate to the caller — nothing here catches them. -/
def run_check (filePath : String) (lines : List String) (cfg : CheckConfig) :
    Except Unit (List Finding) :=
  let sev := cfg.severity.getD Severity.WARNING
  match cfg.files with
  | some fps =>
      if fps.any (fun p => substrS p filePath) then
        runPatterns filePath lines cfg sev cfg.patterns
      else Except.ok []
  | none => runPatterns filePath lines cfg sev cfg.patterns

/-- The check loop of `validate_file` (every configured check is run, in
order); a raised regex error aborts the whole file — and, in the source,
the whole run, since no caller catches it. -/
def validate_file (filePath : String) (lines : List String) :
    List CheckConfig → Except Unit (List Finding)
  | [] => Except.ok []
  | cfg :: rest =>
      match run_check filePath lines cfg with
      | Except.error e => Except.error e
      | Except.ok fs =>
        match validate_file filePath lines rest with
        | Except.error e => Except.error e
        | Except.ok fs2 => Except.ok (fs ++ fs2)

/-- Return value of `print_summary`: the bare `return` on an empty finding
list yields Python `None` (modelled as `none`), otherwise `1` exactly when
an ERROR finding exists. -/
def print_summary_ret (fs : List Finding) : Option Nat :=
  if fs.isEmpty then none
  else some (if (fs.filter (fun f => f.severity == Severity.ERROR)).isEmpty then 0 else 1)

/-- The validator's process exit status: `sys.exit(print_summary())`,
where `sys.exit(None)` exits with status 0. -/
def run_result (fs : List Finding) : Nat :=
  (print_summary_ret fs).getD 0

end Val

/-! ## Specification-side window and concrete inputs used by the claims -/

namespace Val

/-- The specification's context window at 1-based line `lineNum`: the
lines whose index lies between `lineNum - contextLines` and
`lineNum + contextLines` inclusive, clamped to the file — the first
`lineNum + contextLines` lines with the first `lineNum - contextLines - 1`
of them removed. -/
def windowSpec (allLines : List String) (lineNum contextLines : Nat) : List String :=
  (allLines.take (lineNum + contextLines)).drop (lineNum - contextLines - 1)

end Val

/-- 3-module graph A→B, B→C, C→A of the cycle-detection claim. -/
def gcyc3 : Arch.Graph := [("A", ["B"]), ("B", ["C"]), ("C", ["A"])]

/-- A 2-module acyclic graph. -/
def gAcy : Arch.Graph := [("A", ["B"]), ("B", [])]

/-- Layer configuration of the layer-violation claim. -/
def layers3 : List (String × Arch.LayerCfg) := [("domain", ⟨[], ["infra.*"]⟩)]

/-- A `domain`-layer module importing `infra.db`. -/
def mod3a : Arch.Module := ⟨"m.py", "m.py", ["infra.db"], [], [], 10, some "domain"⟩

/-- A `domain`-layer module importing `infra2.other`. -/
def mod3b : Arch.Module := ⟨"m.py", "m.py", ["infra2.other"], [], [], 10, some "domain"⟩

/-- Explicit line thresholds (warning 500, error 1000) of the complexity claim. -/
def th4 : Arch.ComplexityThresholds := ⟨some 500, some 1000, none⟩

/-- A module with the given line count and no functions. -/
def mod4 (lc : Nat) : Arch.Module := ⟨"m.py", "m.py", [], [], [], lc, none⟩

/-- File lines of the context-suppression claim: the sentinel `ALLOW`
sits two lines below the match line 3. -/
def linesC5 : List String := ["l1\n", "l2\n", "x = 5\n", "l4\n", "ALLOW\n"]

/-- A module whose own dotted path matches one of its imports. -/
def mod6 : Arch.Module := ⟨"utils.py", "utils.py", ["utils"], [], [], 10, none⟩

/-- Single-module corpus containing `mod6`. -/
def mods6 : List (String × Arch.Module) := [("utils.py", mod6)]

/-- Single-module corpus of the unresolved-import witness. -/
def mods9 : List (String × Arch.Module) := [("a.py", ⟨"a.py", "a.py", [], [], [], 5, none⟩)]

/-- The importing module of the unresolved-import witness. -/
def mod9 : Arch.Module := ⟨"b.py", "b.py", ["a"], [], [], 5, none⟩

/-- A rule regex that does not compile. -/
def badRegex : Regex := ⟨"(", none⟩

/-- A compiling rule regex matching any line containing `x`. -/
def goodRegex : Regex := ⟨"x", some (fun s => substrS "x" s)⟩

/-- A validation check whose only pattern has the non-compiling regex. -/
def cfg7bad : Val.CheckConfig := ⟨"bad_check", none, [.bare badRegex], none, [], none⟩

/-- A validation check with a compiling ERROR pattern. -/
def cfg7good : Val.CheckConfig := ⟨"good_check", some .ERROR, [.bare goodRegex], none, [], none⟩

/-! ## Semantics of the backtracking matcher -/

theorem rmatchAux_sound :
    ∀ (f : Nat) (p : List RElem) (s : List Char),
      rmatchAux f p s = true → RMatch p s := by
  intro f
  induction f with
  | zero => intro p s h; simp [rmatchAux] at h
  | succ f ih =>
    intro p s h
    match p, s with
    | [], s => exact RMatch.nil s
    | .rlit c :: p, [] => simp [rmatchAux] at h
    | .rlit c :: p, d :: s =>
      rw [rmatchAux, Bool.and_eq_true, beq_iff_eq] at h
      obtain ⟨hcd, hrec⟩ := h
      subst hcd
      exact RMatch.lit (ih p s hrec)
    | .rdot :: p, [] => simp [rmatchAux] at h
    | .rdot :: p, d :: s =>
      rw [rmatchAux] at h
      exact RMatch.dot d (ih p s h)
    | .rstar ex :: p, [] =>
      rw [rmatchAux] at h
      exact RMatch.starSkip (ih p [] h)
    | .rstar ex :: p, d :: s =>
      rw [rmatchAux, Bool.or_eq_true] at h
      cases h with
      | inl h => exact RMatch.starSkip (ih p (d :: s) h)
      | inr h =>
        rw [Bool.and_eq_true, Bool.not_eq_true'] at h
        obtain ⟨hex, hrec⟩ := h
        exact RMatch.starCons hex (ih (.rstar ex :: p) s hrec)

theorem rmatchAux_complete :
    ∀ {p : List RElem} {s : List Char}, RMatch p s →
      ∀ f : Nat, p.length + s.length < f → rmatchAux f p s = true := by
  intro p s h
  induction h with
  | nil s =>
    intro f hf
    obtain ⟨f, rfl⟩ := Nat.exists_eq_succ_of_ne_zero (Nat.pos_iff_ne_zero.mp
      (Nat.lt_of_le_of_lt (Nat.zero_le _) hf))
    rw [rmatchAux]
  | lit _ ih =>
    intro f hf
    obtain ⟨f, rfl⟩ := Nat.exists_eq_succ_of_ne_zero (Nat.pos_iff_ne_zero.mp
      (Nat.lt_of_le_of_lt (Nat.zero_le _) hf))
    rw [rmatchAux, Bool.and_eq_true, beq_iff_eq]
    refine ⟨rfl, ih f ?_⟩
    simp only [List.length_cons] at hf
    omega
  | dot d _ ih =>
    intro f hf
    obtain ⟨f, rfl⟩ := Nat.exists_eq_succ_of_ne_zero (Nat.pos_iff_ne_zero.mp
      (Nat.lt_of_le_of_lt (Nat.zero_le _) hf))
    rw [rmatchAux]
    refine ih f ?_
    simp only [List.length_cons] at hf
    omega
  | starSkip h ih =>
    rename_i ex p s
    intro f hf
    obtain ⟨f, rfl⟩ := Nat.exists_eq_succ_of_ne_zero (Nat.pos_iff_ne_zero.mp
      (Nat.lt_of_le_of_lt (Nat.zero_le _) hf))
    cases s with
    | nil =>
      rw [rmatchAux]
      refine ih f ?_
      simp only [List.length_cons, List.length_nil] at hf ⊢
      omega
    | cons d s =>
      rw [rmatchAux, Bool.or_eq_true]
      refine Or.inl (ih f ?_)
      simp only [List.length_cons] at hf ⊢
      omega
  | starCons hex _ ih =>
    rename_i ex p s d
    intro f hf
    obtain ⟨f, rfl⟩ := Nat.exists_eq_succ_of_ne_zero (Nat.pos_iff_ne_zero.mp
      (Nat.lt_of_le_of_lt (Nat.zero_le _) hf))
    simp only [List.length_cons] at hf
    rw [rmatchAux, Bool.or_eq_true]
    refine Or.inr ?_
    rw [Bool.and_eq_true, Bool.not_eq_true']
    exact ⟨hex, ih f (by simp only [List.length_cons]; omega)⟩

/-- The executable matcher agrees with the declarative prefix semantics. -/
theorem rmatch_iff (p : List RElem) (s : List Char) :
    rmatch p s = true ↔ RMatch p s :=
  ⟨rmatchAux_sound _ p s,
   fun h => rmatchAux_complete h _ (Nat.lt_succ_of_le (Nat.le_refl _))⟩

/-- A matched pattern still matches after appending anything: the match is
anchored at the start only. -/
theorem rmatch_append (p : List RElem) (s t : List Char) :
    rmatch p s = true → rmatch p (s ++ t) = true := by
  intro h
  rw [rmatch_iff] at h ⊢
  induction h with
  | nil s => exact RMatch.nil _
  | lit _ ih => exact RMatch.lit ih
  | dot d _ ih => exact RMatch.dot d ih
  | starSkip _ ih => exact RMatch.starSkip ih
  | starCons hex _ ih => exact RMatch.starCons hex ih

/-! ## Helper lemmas for the cycle check -/

theorem neighborsOf_edge {g : Arch.Graph} {a nb : String}
    (h : nb ∈ Arch.neighborsOf g a) : Arch.edgeP g a nb := by
  unfold Arch.neighborsOf at h
  cases hf : List.find? (fun e => e.1 == a) g with
  | none => rw [hf] at h; simp at h
  | some e =>
    rw [hf] at h
    simp only [Option.map_some', Option.getD_some] at h
    have hmem := List.mem_of_find?_eq_some hf
    have hpred := List.find?_some hf
    rw [beq_iff_eq] at hpred
    exact ⟨e, hmem, hpred, h⟩

theorem hasPathAux_reaches (g : Arch.Graph) :
    ∀ (fuel : Nat) (s t : String) (vis : List String),
      Arch.hasPathAux g fuel s t vis = true → Arch.Reaches g s t := by
  intro fuel
  induction fuel with
  | zero => intro s t vis h; simp [Arch.hasPathAux] at h
  | succ n ih =>
    intro s t vis h
    simp only [Arch.hasPathAux] at h
    split at h
    · rename_i hst; subst hst; exact Arch.Reaches.refl s
    · split at h
      · simp at h
      · rw [List.any_eq_true] at h
        obtain ⟨nb, hnb, hrec⟩ := h
        exact Arch.Reaches.step (neighborsOf_edge hnb) (ih nb t _ hrec)

theorem has_path_reaches {g : Arch.Graph} {s t : String}
    (h : Arch.has_path g s t = true) : Arch.Reaches g s t :=
  hasPathAux_reaches g _ s t [] h

theorem cycle_inner_fold (g : Arch.Graph) (hA : Arch.Acyclic g) (a : String) :
    ∀ bs : List String, (∀ b ∈ bs, Arch.edgeP g a b) →
    ∀ acc : List (String × String) × List Arch.ArchitectureViolation,
      acc.2 = [] →
      (bs.foldl (fun ac b => Arch.cycleStep g ac a b) acc).2 = [] := by
  intro bs
  induction bs with
  | nil => intro _ acc h; simpa using h
  | cons b bs ih =>
    intro hbs acc hacc
    rw [List.foldl_cons]
    apply ih (fun x hx => hbs x (List.mem_cons_of_mem _ hx))
    unfold Arch.cycleStep
    split
    · exact hacc
    · simp only
      cases hp : Arch.has_path g b a with
      | false => simpa using hacc
      | true =>
        exact absurd (has_path_reaches hp) (hA a b (hbs b (List.mem_cons_self _ _)))

theorem cycle_outer_fold (g : Arch.Graph) (hA : Arch.Acyclic g) :
    ∀ entries : List (String × List String),
      (∀ e ∈ entries, ∀ b ∈ e.2, Arch.edgeP g e.1 b) →
      ∀ acc : List (String × String) × List Arch.ArchitectureViolation,
        acc.2 = [] →
        (entries.foldl
          (fun ac e => e.2.foldl (fun ac2 b => Arch.cycleStep g ac2 e.1 b) ac) acc).2 = [] := by
  intro entries
  induction entries with
  | nil => intro _ acc h; simpa using h
  | cons e es ih =>
    intro hes acc hacc
    rw [List.foldl_cons]
    apply ih (fun x hx => hes x (List.mem_cons_of_mem _ hx))
    exact cycle_inner_fold g hA e.1 e.2 (hes e (List.mem_cons_self _ _)) acc hacc

theorem gAcy_reaches_B {c : String} (h : Arch.Reaches gAcy "B" c) : c = "B" := by
  cases h with
  | refl => rfl
  | step he hr =>
    obtain ⟨e, hm, h1, h2⟩ := he
    simp only [gAcy, List.mem_cons, List.not_mem_nil, or_false] at hm
    rcases hm with hm | hm
    · rw [hm] at h1; exact absurd h1 (by decide)
    · rw [hm] at h2; simp at h2

theorem gAcy_acyclic : Arch.Acyclic gAcy := by
  intro a b he hr
  obtain ⟨e, hm, h1, h2⟩ := he
  simp only [gAcy, List.mem_cons, List.not_mem_nil, or_false] at hm
  rcases hm with hm | hm
  · rw [hm] at h1 h2
    simp only [List.mem_cons, List.not_mem_nil, or_false] at h2
    subst h2
    rw [← h1] at hr
    exact absurd (gAcy_reaches_B hr) (by decide)
  · rw [hm] at h2; simp at h2

/-- C1: as stated the claim is false — on the 3-module cycle A→B→C→A the
source's pairwise reachability probe emits three ERROR findings (one per
unordered pair), not one finding covering all three modules. -/
theorem claim_C1_counterexample :
    (Arch.check_circular_dependencies gcyc3).length = 3 ∧
    ¬ (Arch.check_circular_dependencies gcyc3).length = 1 := by
  constructor
  · decide
  · decide

/-- C1 (amended): on the 3-module cycle A→B→C→A the check emits exactly
three pairwise ERROR cycle findings, one per unordered pair of modules on
the cycle; and for every acyclic dependency graph it emits zero cycle
findings. -/
theorem claim_C1 :
    ((Arch.check_circular_dependencies gcyc3).map
        (fun v => (v.severity, v.file_path)) =
      [("ERROR", "A"), ("ERROR", "B"), ("ERROR", "C")]) ∧
    ∀ g : Arch.Graph, Arch.Acyclic g → Arch.check_circular_dependencies g = [] := by
  constructor
  · decide
  · intro g hA
    unfold Arch.check_circular_dependencies
    apply cycle_outer_fold g hA g
    · intro e he b hb
      exact ⟨e, he, rfl, hb⟩
    · rfl

/-- C1 witness: the acyclic-graph half of the amended claim applied to the
concrete acyclic graph `gAcy`. -/
theorem claim_C1_witness :
    Arch.Acyclic gAcy ∧ Arch.check_circular_dependencies gAcy = [] :=
  ⟨gAcy_acyclic, claim_C1.2 gAcy gAcy_acyclic⟩

/-! ## C2: layer classification -/

/-- C2: as stated the claim is false — the source matches the translated
pattern with `re.match`, which anchors at the start only, so the bare
pattern `domain` classifies the path `domainx.py`; and `**` is translated
to one arbitrary character followed by a run of non-separator characters,
so `src/**/m.py` fails to classify `src/a/b/m.py`.  The comparison
definition `determine_layer_spec` implements the claim's stated
semantics and disagrees on both inputs. -/
theorem claim_C2_counterexample :
    Arch.determine_layer [("L", ⟨["domain"], []⟩)] "domainx.py" = some "L" ∧
    Arch.determine_layer_spec [("L", ⟨["domain"], []⟩)] "domainx.py" = none ∧
    Arch.determine_layer [("L2", ⟨["src/**/m.py"], []⟩)] "src/a/b/m.py" = none ∧
    Arch.determine_layer_spec [("L2", ⟨["src/**/m.py"], []⟩)] "src/a/b/m.py" = some "L2" := by
  refine ⟨?_, ?_, ?_, ?_⟩ <;> decide

/-- C2 (amended): layer classification tests the path against each
layer's directory patterns in declaration order and returns the first
layer with a matching pattern (none when no pattern matches); the match
semantics is the translated-regex prefix semantics `RMatch`, in which
`*` matches a run of non-slash characters, `**` matches one arbitrary
character followed by a run of non-slash characters, a pattern dot
matches any character, and a match is anchored at the start only (it
survives appending any suffix to the path). -/
theorem claim_C2 :
    (∀ (layersCfg : List (String × Arch.LayerCfg)) (relPath : String),
      Arch.determine_layer layersCfg relPath =
        (layersCfg.find? (fun l =>
          l.2.directories.any (fun pat => globMatchCode '/' pat relPath))).map
          Prod.fst) ∧
    (∀ pat s : String,
      globMatchCode '/' pat s = true ↔ RMatch (globToRegex '/' pat) s.toList) ∧
    (∀ (p : List RElem) (s t : List Char),
      rmatch p s = true → rmatch p (s ++ t) = true) := by
  refine ⟨?_, ?_, ?_⟩
  · intro layersCfg relPath
    induction layersCfg with
    | nil => rfl
    | cons e rest ih =>
      obtain ⟨layerName, info⟩ := e
      simp only [Arch.determine_layer, List.find?]
      cases h : info.directories.any (fun pat => globMatchCode '/' pat relPath) with
      | true => simp [h]
      | false => simp [h, ih]
  · intro pat s
    exact rmatch_iff (globToRegex '/' pat) s.toList
  · exact rmatch_append

/-- C2 witness: prefix anchoring applied at a concrete input. -/
theorem claim_C2_witness :
    rmatch [RElem.rlit 'a'] "a".toList = true ∧
    rmatch [RElem.rlit 'a'] ("a".toList ++ "b".toList) = true :=
  ⟨by decide, claim_C2.2.2 [RElem.rlit 'a'] "a".toList "b".toList (by decide)⟩

/-! ## C3: layer-violation findings -/

/-- C3: a `domain` module with `forbidden_imports: ["infra.*"]` importing
`infra.db` yields exactly one ERROR finding — and, because the dot of the
glob is left unescaped and becomes the regex any-character atom, the
translated pattern `infra.[^.]*` also prefix-matches `infra2.other`, so
that import yields one ERROR finding as well (the claim and the
specification say it must yield none). -/
theorem claim_C3 :
    ((Arch.check_layer_violations layers3 [("m.py", mod3a)]).map
        (fun v => v.severity) = ["ERROR"]) ∧
    ((Arch.check_layer_violations layers3 [("m.py", mod3b)]).map
        (fun v => v.severity) = ["ERROR"]) := by
  constructor <;> decide

/-! ## C4: complexity thresholds -/

/-- C4: as stated the claim is false — both thresholds are strict
comparisons, so a module whose line count equals the warning threshold
(500 here) produces no finding at all, where the claim requires a
WARNING. -/
theorem claim_C4_counterexample :
    Arch.check_complexity_module th4 "m.py" (mod4 500) = [] := by decide

/-- C4 (amended): line thresholds are strict — a line count exactly equal
to the warning threshold yields no finding, a line count one above the
error threshold yields exactly one ERROR finding and no WARNING, a line
count below the warning threshold yields none (for warning ≤ error and a
module within the method limit); missing thresholds default to warning
500 / error 1000 for lines and error 30 for methods. -/
theorem claim_C4 :
    (∀ warn err lc : Nat, warn ≤ err →
      (lc = warn →
        Arch.check_complexity_module ⟨some warn, some err, none⟩ "m.py" (mod4 lc) = []) ∧
      (lc = err + 1 →
        (Arch.check_complexity_module ⟨some warn, some err, none⟩ "m.py" (mod4 lc)).map
          (fun v => v.severity) = ["ERROR"]) ∧
      (lc < warn →
        Arch.check_complexity_module ⟨some warn, some err, none⟩ "m.py" (mod4 lc) = [])) ∧
    (∀ (name : String) (m : Arch.Module),
      Arch.check_complexity_module ⟨none, none, none⟩ name m =
        Arch.check_complexity_module ⟨some 500, some 1000, some 30⟩ name m) := by
  constructor
  · intro warn err lc hwe
    refine ⟨?_, ?_, ?_⟩
    · intro h
      subst h
      simp only [Arch.check_complexity_module, mod4, Option.getD_some, List.length_nil]
      rw [if_neg (by omega), if_neg (by omega), if_neg (by omega)]
      rfl
    · intro h
      subst h
      simp only [Arch.check_complexity_module, mod4, Option.getD_some, List.length_nil]
      rw [if_pos (by omega), if_neg (by omega)]
      rfl
    · intro h
      simp only [Arch.check_complexity_module, mod4, Option.getD_some, List.length_nil]
      rw [if_neg (by omega), if_neg (by omega), if_neg (by omega)]
      rfl
  · intro name m
    rfl

/-- C4 witness: the amended behavior at the concrete thresholds
warning 500 / error 1000, for line counts 500, 1001 and 499. -/
theorem claim_C4_witness :
    (500 : Nat) ≤ 1000 ∧
    Arch.check_complexity_module ⟨some 500, some 1000, none⟩ "m.py" (mod4 500) = [] ∧
    (Arch.check_complexity_module ⟨some 500, some 1000, none⟩ "m.py" (mod4 1001)).map
      (fun v => v.severity) = ["ERROR"] ∧
    Arch.check_complexity_module ⟨some 500, some 1000, none⟩ "m.py" (mod4 499) = [] :=
  ⟨by omega,
   (claim_C4.1 500 1000 500 (by omega)).1 rfl,
   (claim_C4.1 500 1000 1001 (by omega)).2.1 rfl,
   (claim_C4.1 500 1000 499 (by omega)).2.2 (by omega)⟩

/-! ## C5: context-exception suppression -/

/-- The sliced window of the source equals the specification's window of
`contextLines` lines before and after the match line inclusive. -/
theorem windowCode_eq_windowSpec (allLines : List String) (n cl : Nat) :
    Val.windowCode allLines n cl = Val.windowSpec allLines n cl := by
  unfold Val.windowCode Val.windowSpec Val.ctxStart Val.ctxEnd
  rw [List.drop_take]
  rw [List.take_eq_take]
  simp only [List.length_drop]
  omega

/-- C5: a textual pattern match at 1-based line `n` is suppressed exactly
when some allowed-context pattern is the `tests/` sentinel applied to a
test path, or occurs in the matching line itself, or occurs in the window
of `context_lines` lines before and after line `n` inclusive; in
particular the sentinel two lines below the match suppresses it with
`context_lines = 2` and does not with `context_lines = 1`. -/
theorem claim_C5 :
    (∀ (filePath line : String) (allLines : List String) (lineNum : Nat)
        (acs : List String) (clo : Option Nat),
      Val.is_allowed_context filePath line allLines lineNum acs clo = true ↔
        ∃ cp ∈ acs,
          (cp = "tests/" ∧ substrS "tests/" filePath = true) ∨
          substrS cp line = true ∨
          substrS cp (String.join (Val.windowSpec allLines lineNum (clo.getD 2))) = true) ∧
    Val.is_allowed_context "src/f.py" "x = 5\n" linesC5 3 ["ALLOW"] (some 2) = true ∧
    Val.is_allowed_context "src/f.py" "x = 5\n" linesC5 3 ["ALLOW"] (some 1) = false := by
  refine ⟨?_, by decide, by decide⟩
  intro filePath line allLines lineNum acs clo
  unfold Val.is_allowed_context
  rw [List.any_eq_true]
  refine exists_congr fun cp => and_congr_right fun _ => ?_
  simp only [Bool.or_eq_true, Bool.and_eq_true, beq_iff_eq,
    windowCode_eq_windowSpec, or_assoc]

/-! ## C6: self-edges in the dependency graph -/

/-- C6: as stated the claim is false — `build_dependency_graph` iterates
over all modules of the corpus, including the importing module itself, so
a module whose own dotted path matches one of its imports receives a
self-edge: the single module `utils.py` importing `utils` depends on
itself. -/
theorem claim_C6_counterexample :
    Arch.build_dependency_graph mods6 = [("utils.py", ["utils.py"])] := by decide

/-- C6 (amended): import resolution considers every candidate module
including the importing one, so the graph may contain self-edges; for a
corpus with distinct module keys, a module's dependency set contains its
own key exactly when one of its raw imports matches its own dotted
path. -/
theorem claim_C6 :
    ∀ (mods : List (String × Arch.Module)) (name : String) (m : Arch.Module),
      (name, m) ∈ mods → (mods.map Prod.fst).Nodup →
      (name ∈ Arch.moduleDeps mods m ↔
        ∃ imp ∈ m.imports, Arch.importMatches imp (Arch.dottedPath m.path) = true) := by
  intro mods name m hmem hnd
  unfold Arch.moduleDeps
  rw [List.mem_map]
  constructor
  · rintro ⟨e, he, hfst⟩
    rw [List.mem_filter] at he
    obtain ⟨hemem, hany⟩ := he
    have : e = (name, m) := by
      have := List.inj_on_of_nodup_map hnd hemem hmem
      exact this (by simpa using hfst)
    subst this
    simpa using List.any_eq_true.mp hany
  · intro h
    refine ⟨(name, m), List.mem_filter.mpr ⟨hmem, ?_⟩, rfl⟩
    exact List.any_eq_true.mpr (by simpa using h)

/-- C6 witness: the self-edge characterization applied to the concrete
single-module corpus `mods6`. -/
theorem claim_C6_witness :
    ("utils.py", mod6) ∈ mods6 ∧ (mods6.map Prod.fst).Nodup ∧
    ("utils.py" ∈ Arch.moduleDeps mods6 mod6 ↔
      ∃ imp ∈ mod6.imports, Arch.importMatches imp (Arch.dottedPath mod6.path) = true) :=
  ⟨by decide, by decide, claim_C6 mods6 "utils.py" mod6 (by decide) (by decide)⟩

/-! ## C9: unresolved imports -/

/-- C9: an import string that matches no module of the corpus (it is not
a substring of any dotted module path and no dotted module path ends with
it) contributes no dependency edge: adding it to a module's import list
leaves the module's computed dependency set unchanged — and the
computation is total, so no error is raised. -/
theorem claim_C9 :
    ∀ (mods : List (String × Arch.Module)) (m : Arch.Module) (imp : String),
      (∀ e ∈ mods, Arch.importMatches imp (Arch.dottedPath e.2.path) = false) →
      Arch.moduleDeps mods { m with imports := imp :: m.imports } =
        Arch.moduleDeps mods m := by
  intro mods m imp h
  unfold Arch.moduleDeps
  congr 1
  apply List.filter_congr
  intro e he
  simp only [List.any_cons, h e he, Bool.false_or]

/-- C9 witness: the unresolvable import `zzz` added to the importing
module of the single-module corpus `mods9` changes nothing. -/
theorem claim_C9_witness :
    (∀ e ∈ mods9, Arch.importMatches "zzz" (Arch.dottedPath e.2.path) = false) ∧
    Arch.moduleDeps mods9 { mod9 with imports := "zzz" :: mod9.imports } =
      Arch.moduleDeps mods9 mod9 :=
  ⟨by decide, claim_C9 mods9 mod9 "zzz" (by decide)⟩

/-! ## C7: regex compilation failure -/

/-- C7: as stated the claim is false — nothing in the validator catches a
regex failure, so a check whose rule regex does not compile makes the
whole run raise (`Except.error`) instead of being skipped with a warning;
the second, well-formed ERROR check is never evaluated, although alone it
would produce a finding. -/
theorem claim_C7_counterexample :
    Val.validate_file "f.py" ["x = 1"] [cfg7bad, cfg7good] = Except.error () ∧
    Val.validate_file "f.py" ["x = 1"] [cfg7good] =
      Except.ok [{ severity := Val.Severity.ERROR, file_path := "f.py",
                   line_number := 1, rule_name := "good_check",
                   message := "Matched pattern: x", code_snippet := "x = 1",
                   suggestion := "" }] := by
  constructor <;> rfl

/-- C7 (amended): in the textual validator a rule regex that fails to
compile is not skipped — the first search on a line of an applicable file
raises and aborts the run; only the analyzer's duplicate-logic check
survives a bad regex, where the per-module bare `except` silently makes
the pattern match no modules (without any warning) and the remaining
patterns are still evaluated. -/
theorem claim_C7 :
    (∀ (filePath l : String) (ls : List String) (cfg : Val.CheckConfig)
        (src : String) (rest : List Val.PatternCfg),
      cfg.files = none → cfg.patterns = Val.PatternCfg.bare ⟨src, none⟩ :: rest →
      Val.run_check filePath (l :: ls) cfg = Except.error ()) ∧
    (∀ (nm sg src : String) (rest : List Arch.DupPattern) (thr : Option Nat)
        (corpus : List (String × String)),
      Arch.check_duplicate_logic ⟨⟨nm, ⟨src, none⟩, sg⟩ :: rest, thr⟩ corpus =
        Arch.check_duplicate_logic ⟨rest, thr⟩ corpus) := by
  constructor
  · intro filePath l ls cfg src rest hf hp
    unfold Val.run_check
    rw [hf, hp]
    simp [Val.runPatterns, Val.scanLines, reSearch]
  · intro nm sg src rest thr corpus
    unfold Arch.check_duplicate_logic
    rw [List.foldl_cons]
    have hm : Arch.dupMatches corpus ⟨src, none⟩ = [] := by
      unfold Arch.dupMatches
      simp [List.filterMap_eq_nil_iff]
    simp only [hm]
    simp

/-- C7 witness: the abort applied to the concrete bad check `cfg7bad`. -/
theorem claim_C7_witness :
    cfg7bad.files = none ∧
    cfg7bad.patterns = Val.PatternCfg.bare ⟨"(", none⟩ :: [] ∧
    Val.run_check "g.py" ["a"] cfg7bad = Except.error () :=
  ⟨rfl, rfl, claim_C7.1 "g.py" "a" [] cfg7bad "(" [] rfl rfl⟩

/-! ## C8: pass/fail contract -/

/-- C8: in both tools the derived run result is a failure exactly when an
ERROR-severity finding exists: the analyzer's `print_violations` returns
1 iff some violation has severity ERROR (0 otherwise), and the
validator's exit status is 1 iff some finding has severity ERROR — a run
with only WARNING/INFO findings, or none, passes. -/
theorem claim_C8 :
    (∀ vs : List Arch.ArchitectureViolation,
      (Arch.print_violations_ret vs = 1 ↔ ∃ v ∈ vs, v.severity = "ERROR") ∧
      (Arch.print_violations_ret vs = 0 ∨ Arch.print_violations_ret vs = 1)) ∧
    (∀ fs : List Val.Finding,
      (Val.run_result fs = 1 ↔ ∃ f ∈ fs, f.severity = Val.Severity.ERROR) ∧
      (Val.run_result fs = 0 ∨ Val.run_result fs = 1)) := by
  constructor
  · intro vs
    unfold Arch.print_violations_ret
    cases vs with
    | nil => simp
    | cons v t =>
      rw [if_neg (by simp)]
      constructor
      · by_cases hf :
          ((v :: t).filter (fun x => x.severity == "ERROR")).isEmpty = true
        · rw [if_pos hf]
          rw [List.isEmpty_iff, List.filter_eq_nil_iff] at hf
          simp only [beq_iff_eq] at hf
          constructor
          · intro h; exact absurd h (by omega)
          · rintro ⟨x, hx, hsev⟩; exact absurd hsev (hf x hx)
        · rw [if_neg hf]
          rw [Bool.not_eq_true, List.isEmpty_eq_false] at hf
          constructor
          · intro _
            obtain ⟨x, hx⟩ := List.exists_mem_of_ne_nil _ hf
            rw [List.mem_filter, beq_iff_eq] at hx
            exact ⟨x, hx.1, hx.2⟩
          · intro _; rfl
      · by_cases hf :
          ((v :: t).filter (fun x => x.severity == "ERROR")).isEmpty = true
        · rw [if_pos hf]; exact Or.inl rfl
        · rw [if_neg hf]; exact Or.inr rfl
  · intro fs
    unfold Val.run_result Val.print_summary_ret
    cases fs with
    | nil => simp
    | cons f t =>
      rw [if_neg (by simp)]
      simp only [Option.getD_some]
      constructor
      · by_cases hf :
          ((f :: t).filter (fun x => x.severity == Val.Severity.ERROR)).isEmpty = true
        · rw [if_pos hf]
          rw [List.isEmpty_iff, List.filter_eq_nil_iff] at hf
          simp only [beq_iff_eq] at hf
          constructor
          · intro h; exact absurd h (by omega)
          · rintro ⟨x, hx, hsev⟩; exact absurd hsev (hf x hx)
        · rw [if_neg hf]
          rw [Bool.not_eq_true, List.isEmpty_eq_false] at hf
          constructor
          · intro _
            obtain ⟨x, hx⟩ := List.exists_mem_of_ne_nil _ hf
            rw [List.mem_filter, beq_iff_eq] at hx
            exact ⟨x, hx.1, hx.2⟩
          · intro _; rfl
      · by_cases hf :
          ((f :: t).filter (fun x => x.severity == Val.Severity.ERROR)).isEmpty = true
        · rw [if_pos hf]; exact Or.inl rfl
        · rw [if_neg hf]; exact Or.inr rfl

/-! ## C10: context-window bounds -/

/-- C10: for every file, 1-based line number within the file and
context-line count, the slice bounds computed by `is_allowed_context` are
clamped against both ends of the line list — the start is
`max(0, line_num - context_lines - 1)` and never negative, the end is
`min(len, line_num + context_lines)` and never beyond the list, the start
never exceeds the end, and the sliced window is a contiguous in-range
segment of the list — so the computation is total and accesses no
out-of-range element. -/
theorem claim_C10 :
    ∀ (allLines : List String) (n cl : Nat), 1 ≤ n → n ≤ allLines.length →
      ((Val.ctxStart n cl : Int) = max 0 ((n : Int) - (cl : Int) - 1)) ∧
      ((Val.ctxEnd allLines.length n cl : Int) =
        min (allLines.length : Int) ((n : Int) + (cl : Int))) ∧
      Val.ctxStart n cl ≤ Val.ctxEnd allLines.length n cl ∧
      Val.ctxEnd allLines.length n cl ≤ allLines.length ∧
      ∃ pre post, allLines = pre ++ Val.windowCode allLines n cl ++ post := by
  intro allLines n cl h1 h2
  refine ⟨?_, ?_, ?_, ?_, ?_⟩
  · unfold Val.ctxStart; omega
  · unfold Val.ctxEnd; omega
  · unfold Val.ctxStart Val.ctxEnd; omega
  · unfold Val.ctxEnd; omega
  · refine ⟨allLines.take (Val.ctxStart n cl),
      (allLines.drop (Val.ctxStart n cl)).drop
        (Val.ctxEnd allLines.length n cl - Val.ctxStart n cl), ?_⟩
    unfold Val.windowCode
    conv_lhs => rw [← List.take_append_drop (Val.ctxStart n cl) allLines]
    rw [List.append_assoc]
    congr 1
    exact (List.take_append_drop _ _).symm

/-- C10 witness: the bounds applied at the concrete three-line file,
line 2, one context line. -/
theorem claim_C10_witness :
    (1 : Nat) ≤ 2 ∧ 2 ≤ (["a", "b", "c"] : List String).length ∧
    ∃ pre post,
      (["a", "b", "c"] : List String) =
        pre ++ Val.windowCode ["a", "b", "c"] 2 1 ++ post :=
  ⟨by decide, by decide, (claim_C10 ["a", "b", "c"] 2 1 (by decide) (by decide)).2.2.2.2⟩
